import Mathlib

set_option maxRecDepth 4000

deriving instance DecidableEq for Except

/-!
Shallow embedding of the installer script `install.py` of the
sd-webui-live-portrait repository.

Strings are modelled as `List Char` (Python `str`).  External
collaborators are modelled as explicit environment fields:

* `importlib.metadata.version` becomes a function
  `List Char → Except (List Char) (List Char)` (a raised exception is an
  `Except.error` carrying its message);
* `launch.is_installed` becomes an opaque boolean predicate on names;
* `launch.run_pip` is recorded as an issued `InstallCall`; whether the
  call itself raises is given by the environment (`pipError`);
* `torch.cuda.is_available()` becomes a boolean environment field;
* the filesystem and subprocess effects of `install_xpose` are recorded
  as a trace of `FsAction`s, with the observable inputs (directory
  existence, directory listing, build exit code, glob matches) given by
  the environment.

The external `packaging.version.parse` is modelled on the release-segment
fragment of PEP 440 (dotted decimal numerals), which is the data model the
specification assigns to versions (major/minor/patch ordering); any other
input is an `InvalidVersion` error, as in `packaging`.  Ordering compares
release tuples with trailing zeros dropped, as `packaging` does, and
`major`/`minor` default to 0 for missing components.
-/

/-- Python `str.strip()`: remove leading and trailing whitespace. -/
def pyStrip (l : List Char) : List Char :=
  ((l.dropWhile Char.isWhitespace).reverse.dropWhile Char.isWhitespace).reverse

/-- Python `sub in l` substring containment test. -/
def containsSub : List Char → List Char → Bool
  | [], sub => sub.isEmpty
  | l@(_ :: rest), sub => sub.isPrefixOf l || containsSub rest sub

/-- Fuelled worker for `splitOnSub`; the fuel is an upper bound on the
length of the list being split, so the recursion is structural. -/
def splitOnSubFuel (sub : List Char) : Nat → List Char → List (List Char)
  | 0, l => [l]
  | _ + 1, [] => [[]]
  | fuel + 1, l@(c :: rest) =>
    if sub.isPrefixOf l then
      [] :: splitOnSubFuel sub fuel (l.drop sub.length)
    else
      match splitOnSubFuel sub fuel rest with
      | [] => [[c]]
      | h :: t => (c :: h) :: t

/-- Python `l.split(sub)` for a non-empty separator `sub` (every separator
used by `install.py` is a non-empty literal). -/
def splitOnSub (l sub : List Char) : List (List Char) :=
  if sub.isEmpty then [l] else splitOnSubFuel sub l.length l

/-- Decimal value of a digit string. -/
def charsToNat (l : List Char) : Nat :=
  l.foldl (fun a c => a * 10 + (c.toNat - 48)) 0

def invalidVersionMsg : List Char := "InvalidVersion".data

def valueErrorMsg : List Char := "ValueError".data

/-- Model of the external `packaging.version.parse`, restricted to release
segments (dotted decimal numerals): returns the list of numeric release
components, or raises `InvalidVersion` on any other input. -/
def pyParse (s : List Char) : Except (List Char) (List Nat) :=
  let parts := splitOnSub s ['.']
  if parts.all (fun p => !p.isEmpty && p.all Char.isDigit) then
    Except.ok (parts.map charsToNat)
  else Except.error invalidVersionMsg

/-- Release tuples compare in `packaging` with trailing zeros removed. -/
def dropTrailingZeros (r : List Nat) : List Nat :=
  (r.reverse.dropWhile (fun n => n == 0)).reverse

/-- Lexicographic comparison of release tuples (Python tuple `<`). -/
def lexLt : List Nat → List Nat → Bool
  | [], [] => false
  | [], _ :: _ => true
  | _ :: _, [] => false
  | a :: xs, b :: ys => Nat.blt a b || (a == b && lexLt xs ys)

/-- Strict `<` on parsed versions, as `packaging.version.Version.__lt__`
acts on release tuples. -/
def releaseLt (x y : List Nat) : Bool :=
  lexLt (dropTrailingZeros x) (dropTrailingZeros y)

/-- Model of `Version.major`: first release component, defaulting to 0. -/
def relMajor (r : List Nat) : Nat := r.headD 0

/-- Model of `Version.minor`: second release component, defaulting to 0. -/
def relMinor (r : List Nat) : Nat := (r.drop 1).headD 0

/-- Python `f"{x}"` on an `Optional[str]`. -/
def pyOptStr : Option (List Char) → List Char
  | none => "None".data
  | some s => s

/-- Python truthiness of an `Optional[str]`: `None` and `""` are falsy. -/
def optTruthy : Option (List Char) → Bool
  | none => false
  | some s => !s.isEmpty

def eqTok : List Char := "==".data

def geTok : List Char := ">=".data

def leTok : List Char := "<=".data

def atGitTok : List Char := "@git".data

/-- Source: `get_installed_version` — `metadata.version(package)` with every
exception swallowed into `None`. -/
def get_installed_version (md : List Char → Except (List Char) (List Char))
    (package : List Char) : Option (List Char) :=
  match md package with
  | Except.ok v => some v
  | Except.error _ => none

/-- Source: `extract_base_package` — `package_string.split("@git")[0]`. -/
def extract_base_package (package_string : List Char) : List Char :=
  (splitOnSub package_string atGitTok).headD []

/-- An issued `launch.run_pip(cmd, desc)` call. -/
structure InstallCall where
  cmd : List Char
  desc : List Char
deriving DecidableEq

/-- Environment of `install_requirements`: package metadata, the host's
`launch.is_installed` predicate, and whether a given pip command raises. -/
structure PipEnv where
  md : List Char → Except (List Char) (List Char)
  is_installed : List Char → Bool
  pipError : List Char → Option (List Char)

/-- Issue one `run_pip` call; the environment decides whether it raises. -/
def runPipCall (env : PipEnv) (cmd desc : List Char) :
    List InstallCall × Option (List Char) :=
  ([⟨cmd, desc⟩], env.pipError cmd)

/-- Python double-quoting inside the pip command f-strings. -/
def pyQuote (s : List Char) : List Char := '"' :: (s ++ ['"'])

def cmdInstallU (package : List Char) : List Char :=
  "install -U ".data ++ pyQuote package

def cmdInstallPin (name ver : List Char) : List Char :=
  "install ".data ++ pyQuote (name ++ eqTok ++ ver)

def cmdInstallBare (package : List Char) : List Char :=
  "install ".data ++ pyQuote package

def descChange (name : List Char) (inst : Option (List Char)) (ver : List Char) :
    List Char :=
  "sd-webui-live-portrait requirement: changing ".data ++ name ++
    " version from ".data ++ pyOptStr inst ++ " to ".data ++ ver

def descBare (package : List Char) : List Char :=
  "sd-webui-live-portrait requirement: ".data ++ package

/-- Body of the `try:` block of `install_requirements` for one already
stripped requirement line.  Returns the pip calls issued and, when the
body raises (tuple-unpack `ValueError`, `InvalidVersion`, or a pip
failure), the exception message. -/
def processPackage (env : PipEnv) (package : List Char) :
    List InstallCall × Option (List Char) :=
  if containsSub package eqTok then
    match splitOnSub package eqTok with
    | [package_name, package_version] =>
      let installed_version := get_installed_version env.md package_name
      if installed_version ≠ some package_version then
        runPipCall env (cmdInstallU package)
          (descChange package_name installed_version package_version)
      else ([], none)
    | _ => ([], some valueErrorMsg)
  else if containsSub package geTok then
    match splitOnSub package geTok with
    | [package_name, package_version] =>
      let installed_version := get_installed_version env.md package_name
      match installed_version with
      | none =>
        runPipCall env (cmdInstallU package)
          (descChange package_name installed_version package_version)
      | some iv =>
        if iv.isEmpty then
          runPipCall env (cmdInstallU package)
            (descChange package_name installed_version package_version)
        else
          match pyParse iv, pyParse package_version with
          | Except.error e, _ => ([], some e)
          | Except.ok _, Except.error e => ([], some e)
          | Except.ok ri, Except.ok rv =>
            if releaseLt ri rv then
              runPipCall env (cmdInstallU package)
                (descChange package_name installed_version package_version)
            else ([], none)
    | _ => ([], some valueErrorMsg)
  else if containsSub package leTok then
    match splitOnSub package leTok with
    | [package_name, package_version] =>
      let installed_version := get_installed_version env.md package_name
      match installed_version with
      | none =>
        runPipCall env (cmdInstallPin package_name package_version)
          (descChange package_name installed_version package_version)
      | some iv =>
        if iv.isEmpty then
          runPipCall env (cmdInstallPin package_name package_version)
            (descChange package_name installed_version package_version)
        else
          match pyParse iv, pyParse package_version with
          | Except.error e, _ => ([], some e)
          | Except.ok _, Except.error e => ([], some e)
          | Except.ok ri, Except.ok rv =>
            if releaseLt rv ri then
              runPipCall env (cmdInstallPin package_name package_version)
                (descChange package_name installed_version package_version)
            else ([], none)
    | _ => ([], some valueErrorMsg)
  else if env.is_installed (extract_base_package package) then ([], none)
  else runPipCall env (cmdInstallBare package) (descBare package)

/-- One iteration of the `for package in file` loop up to the end of the
`try:` block: strip the raw line, then run `processPackage`. -/
def tryProcessEntry (env : PipEnv) (raw : List Char) :
    List InstallCall × Option (List Char) :=
  processPackage env (pyStrip raw)

def failWarn (package : List Char) : List Char :=
  "Warning: Failed to install ".data ++ package ++
    ", some preprocessors may not work.".data

/-- One full loop iteration including the `except` clause: a raised
exception is printed (its message, then the warning line) and swallowed. -/
def processEntry (env : PipEnv) (raw : List Char) :
    List InstallCall × List (List Char) :=
  match tryProcessEntry env raw with
  | (calls, none) => (calls, [])
  | (calls, some e) => (calls, [e, failWarn (pyStrip raw)])

/-- Source: `install_requirements` — fold the per-line processing over the
requirement lines, collecting issued pip calls and printed log lines. -/
def install_requirements (env : PipEnv) (reqLines : List (List Char)) :
    List InstallCall × List (List Char) :=
  match reqLines with
  | [] => ([], [])
  | raw :: rest =>
    let r := processEntry env raw
    let rs := install_requirements env rest
    (r.1 ++ rs.1, r.2 ++ rs.2)

/-- Source: the static `onnx_to_onnx_runtime_versions` table (association
list, keys distinct). -/
def onnx_to_onnx_runtime_versions : List (List Char × List Char) :=
  [("1.16.1".data, "1.18".data),
   ("1.16.0".data, "1.18".data),
   ("1.15.0".data, "1.17".data),
   ("1.14.1".data, "1.16".data),
   ("1.14.0".data, "1.15".data),
   ("1.13.1".data, "1.14".data),
   ("1.13.0".data, "1.14".data),
   ("1.12.0".data, "1.13".data),
   ("1.11.0".data, "1.11".data),
   ("1.10.2".data, "1.10".data),
   ("1.10.1".data, "1.10".data),
   ("1.10.0".data, "1.10".data)]

/-- Python `dict.get(k, None)` on an association list. -/
def tableLookup (k : List Char) : List (List Char × List Char) → Option (List Char)
  | [] => none
  | (k', v) :: rest => if k = k' then some v else tableLookup k rest

/-- Model of `Version.base_version` of a release-only version: the dot-joined
decimal rendering of the release components. -/
def renderRelease : List Nat → List Char
  | [] => []
  | [n] => Nat.toDigits 10 n
  | n :: rest => Nat.toDigits 10 n ++ '.' :: renderRelease rest

/-- Source: `get_onnxruntime_version_given_onnx_version` — look up the
installed onnx version's base version in the compatibility table; the
`parse` of an invalid version string raises (propagates as `error`). -/
def get_onnxruntime_version_given_onnx_version
    (md : List Char → Except (List Char) (List Char)) :
    Except (List Char) (Option (List Char)) :=
  match get_installed_version md "onnx".data with
  | some installed_onnx_version =>
    if installed_onnx_version.isEmpty then Except.ok none
    else
      match pyParse installed_onnx_version with
      | Except.error e => Except.error e
      | Except.ok r =>
        Except.ok (tableLookup (renderRelease r) onnx_to_onnx_runtime_versions)
  | none => Except.ok none

/-- Source: `are_versions_similar` — parse both strings and compare major
and minor components; `parse` may raise. -/
def are_versions_similar (version_left version_right : List Char) :
    Except (List Char) Bool :=
  match pyParse version_left with
  | Except.error e => Except.error e
  | Except.ok l =>
    match pyParse version_right with
    | Except.error e => Except.error e
    | Except.ok r =>
      Except.ok ((relMajor l == relMajor r) && (relMinor l == relMinor r))

/-- Environment of `install_onnxruntime`. -/
structure OrtEnv where
  md : List Char → Except (List Char) (List Char)
  cuda_available : Bool
  pipError : List Char → Option (List Char)

/-- One `run_pip` call of `install_onnxruntime` (command has no quoting). -/
def ortPipCall (env : OrtEnv) (pkg : List Char) :
    List InstallCall × Option (List Char) :=
  ([⟨"install ".data ++ pkg, descBare pkg⟩],
   env.pipError ("install ".data ++ pkg))

/-- Reinstall check for one already-installed runtime variant: issue a
pinned install when the installed version is dissimilar to the expected
one.  `are_versions_similar` may raise, which propagates. -/
def ortVariantStep (env : OrtEnv) (inst : Option (List Char))
    (pkgName : List Char) (expected : Option (List Char)) :
    List InstallCall × Option (List Char) :=
  if optTruthy inst && optTruthy expected then
    match inst, expected with
    | some iv, some ev =>
      match are_versions_similar iv ev with
      | Except.error e => ([], some e)
      | Except.ok b =>
        if !b then ortPipCall env (pkgName ++ eqTok ++ ev) else ([], none)
    | _, _ => ([], none)
  else ([], none)

/-- Source: `install_onnxruntime` — choose and reconcile the runtime
variant.  Result: issued pip calls plus the message of an uncaught
exception, if one was raised (there is no `try` in this function). -/
def install_onnxruntime (env : OrtEnv) : List InstallCall × Option (List Char) :=
  let onnxruntime_installed_version := get_installed_version env.md "onnxruntime".data
  let onnxruntime_gpu_installed_version :=
    get_installed_version env.md "onnxruntime-gpu".data
  match get_onnxruntime_version_given_onnx_version env.md with
  | Except.error e => ([], some e)
  | Except.ok expected_onnxruntime_version =>
    if !optTruthy onnxruntime_installed_version &&
        !optTruthy onnxruntime_gpu_installed_version then
      let onnxruntime :=
        if env.cuda_available then "onnxruntime-gpu".data else "onnxruntime".data
      let onnxruntime_package :=
        if optTruthy expected_onnxruntime_version then
          onnxruntime ++ eqTok ++ expected_onnxruntime_version.getD []
        else onnxruntime
      ortPipCall env onnxruntime_package
    else
      match ortVariantStep env onnxruntime_installed_version "onnxruntime".data
          expected_onnxruntime_version with
      | (c1, some e) => (c1, some e)
      | (c1, none) =>
        let r2 := ortVariantStep env onnxruntime_gpu_installed_version
          "onnxruntime-gpu".data expected_onnxruntime_version
        (c1 ++ r2.1, r2.2)

/-- Filesystem and subprocess effects performed by `install_xpose`,
recorded in program order. -/
inductive FsAction
  | printMsg (msg : List Char)
  | makedirs (path : List Char)
  | copyTree (src dst : List Char)
  | createFile (path : List Char)
  | subprocessRun
  | copyFile (src dst : List Char)
deriving DecidableEq

/-- Environment of `install_xpose`.  `is_macos` and
`torch_version_ok` are the results of the opaque external predicates
`IS_MACOS` and `is_valid_torch_version()`; `op_lib_exists` and
`op_lib_listing` are the `os.path.exists` / `os.listdir` observations of
the destination lib directory; `build_returncode` is the exit status of
the build subprocess (negative values denote signal termination, as in
Python's `subprocess`); `build_matches` are the files found by the
`rglob` over the build output. -/
structure XpEnv where
  is_macos : Bool
  torch_version_ok : Bool
  repo_root : List Char
  tmpdir : List Char
  op_lib_exists : Bool
  op_lib_listing : List (List Char)
  logs_exists : Bool
  build_returncode : Int
  build_matches : List (List Char)

def op_root (env : XpEnv) : List Char :=
  env.repo_root ++ "/liveportrait/utils/dependencies/XPose/models/UniPose/ops".data

def op_lib (env : XpEnv) : List Char := op_root env ++ "/lib".data

def op_logs (env : XpEnv) : List Char := env.repo_root ++ "/logs".data

def log_file (env : XpEnv) : List Char := op_logs env ++ "/xpose.log".data

def log_err_file (env : XpEnv) : List Char := op_logs env ++ "/xpose.err.log".data

def xposeStartMsg : List Char :=
  "Installing sd-webui-live-portrait requirement: XPose".data

def xposeFailMsg : List Char :=
  "Building of OP file for XPose has failed. Check the log file in the extension\x27s \x27logs\x27 folder for more information.".data

/-- Source: `install_xpose` — platform gate, skip when the lib directory
is already populated, otherwise build in a temp directory and copy the
produced artifacts; on a positive exit status print the failure pointer
and return without copying. -/
def install_xpose (env : XpEnv) : List FsAction :=
  if env.is_macos || !env.torch_version_ok then []
  else if !env.op_lib_exists || env.op_lib_listing.isEmpty then
    FsAction.printMsg xposeStartMsg ::
      ((if !env.op_lib_exists then [FsAction.makedirs (op_lib env)] else []) ++
       (if !env.logs_exists then [FsAction.makedirs (op_logs env)] else []) ++
       [FsAction.copyTree (op_root env) env.tmpdir,
        FsAction.createFile (log_file env),
        FsAction.createFile (log_err_file env),
        FsAction.subprocessRun] ++
       (if 0 < env.build_returncode then [FsAction.printMsg xposeFailMsg]
        else env.build_matches.map (fun f => FsAction.copyFile f (op_lib env))))
  else []

/-- Decidable side condition used in theorem hypotheses: the recorded
installed version, when present, is parseable. -/
def parseOk : Option (List Char) → Bool
  | none => true
  | some iv =>
    match pyParse iv with
    | Except.ok _ => true
    | Except.error _ => false

/-- Concrete metadata function used by witnesses: only `numpy` (1.2) and
`onnx` (1.14.1) are installed. -/
def wMd : List Char → Except (List Char) (List Char) := fun p =>
  if p = "numpy".data then Except.ok "1.2".data
  else if p = "onnx".data then Except.ok "1.14.1".data
  else Except.error "PackageNotFoundError".data

/-- Concrete metadata function with an installed runtime variant. -/
def wMdOrt : List Char → Except (List Char) (List Char) := fun p =>
  if p = "onnx".data then Except.ok "1.14.1".data
  else if p = "onnxruntime".data then Except.ok "1.15.1".data
  else Except.error "PackageNotFoundError".data

def wPipEnv : PipEnv := ⟨wMd, fun _ => false, fun _ => none⟩

def wOrtEnv : OrtEnv := ⟨wMd, true, fun _ => none⟩

def wOrtEnv2 : OrtEnv := ⟨wMdOrt, true, fun _ => none⟩

def wXpEnvFail : XpEnv :=
  ⟨false, true, "r".data, "t".data, false, [], false, 1,
   ["MultiScaleDeformableAttention.so".data]⟩

def wXpEnvDone : XpEnv :=
  ⟨false, true, "r".data, "t".data, true,
   ["MultiScaleDeformableAttention.so".data], true, 0, []⟩

theorem splitOnSubFuel_ne_nil (sub : List Char) (fuel : Nat) (l : List Char) :
    splitOnSubFuel sub fuel l ≠ [] := by
  cases fuel with
  | zero => simp [splitOnSubFuel]
  | succ n =>
    cases l with
    | nil => simp [splitOnSubFuel]
    | cons c rest =>
      simp only [splitOnSubFuel]
      split
      · simp
      · split <;> simp

theorem splitOnSubFuel_singleton (sub : List Char) (fuel : Nat) :
    ∀ l x, splitOnSubFuel sub fuel l = [x] → x = l := by
  induction fuel with
  | zero =>
    intro l x h
    simp [splitOnSubFuel] at h
    exact h.symm
  | succ n ih =>
    intro l x h
    cases l with
    | nil =>
      simp [splitOnSubFuel] at h
      exact h
    | cons c rest =>
      simp only [splitOnSubFuel] at h
      by_cases hp : sub.isPrefixOf (c :: rest)
      · rw [if_pos hp] at h
        have h2 := (List.cons_eq_cons.mp h).2
        exact absurd h2 (splitOnSubFuel_ne_nil sub n _)
      · rw [if_neg hp] at h
        cases h' : splitOnSubFuel sub n rest with
        | nil => exact absurd h' (splitOnSubFuel_ne_nil sub n rest)
        | cons hh tt =>
          rw [h'] at h
          have h1 := (List.cons_eq_cons.mp h).1
          have h2 := (List.cons_eq_cons.mp h).2
          subst h2
          have := ih rest hh h'
          subst this
          exact h1.symm

theorem splitOnSubFuel_pair (sub : List Char) (fuel : Nat) :
    ∀ l a b, splitOnSubFuel sub fuel l = [a, b] → l = a ++ sub ++ b := by
  induction fuel with
  | zero =>
    intro l a b h
    simp [splitOnSubFuel] at h
  | succ n ih =>
    intro l a b h
    cases l with
    | nil => simp [splitOnSubFuel] at h
    | cons c rest =>
      simp only [splitOnSubFuel] at h
      by_cases hp : sub.isPrefixOf (c :: rest)
      · rw [if_pos hp] at h
        have h1 := (List.cons_eq_cons.mp h).1
        have h2 := (List.cons_eq_cons.mp h).2
        subst h1
        have hb := splitOnSubFuel_singleton sub n _ b h2
        obtain ⟨t, ht⟩ := List.isPrefixOf_iff_prefix.mp hp
        have hd : (c :: rest).drop sub.length = t := by
          rw [← ht, List.drop_left]
        rw [hd] at hb
        subst hb
        simpa using ht.symm
      · rw [if_neg hp] at h
        cases h' : splitOnSubFuel sub n rest with
        | nil => exact absurd h' (splitOnSubFuel_ne_nil sub n rest)
        | cons hh tt =>
          rw [h'] at h
          have h1 := (List.cons_eq_cons.mp h).1
          have h2 := (List.cons_eq_cons.mp h).2
          subst h2
          subst h1
          have := ih rest hh b h'
          simpa using congrArg (List.cons c) this

theorem splitOnSub_pair (l sub a b : List Char)
    (h : splitOnSub l sub = [a, b]) : l = a ++ sub ++ b := by
  unfold splitOnSub at h
  by_cases he : sub.isEmpty
  · rw [if_pos he] at h
    simp at h
  · rw [if_neg he] at h
    exact splitOnSubFuel_pair sub l.length l a b h

theorem pyParse_ok_not_empty (s : List Char) (r : List Nat)
    (h : pyParse s = Except.ok r) : s.isEmpty = false := by
  cases s with
  | nil => simp [pyParse, splitOnSub, splitOnSubFuel] at h
  | cons c rest => rfl

theorem install_requirements_append (env : PipEnv) (l1 l2 : List (List Char)) :
    install_requirements env (l1 ++ l2) =
      ((install_requirements env l1).1 ++ (install_requirements env l2).1,
       (install_requirements env l1).2 ++ (install_requirements env l2).2) := by
  induction l1 with
  | nil => simp [install_requirements]
  | cons h t ih => simp [install_requirements, ih]

theorem tableLookup_value_not_empty (k v : List Char)
    (tbl : List (List Char × List Char))
    (htbl : ∀ p ∈ tbl, p.2.isEmpty = false)
    (h : tableLookup k tbl = some v) : v.isEmpty = false := by
  induction tbl with
  | nil => simp [tableLookup] at h
  | cons p rest ih =>
    simp only [tableLookup] at h
    by_cases hk : k = p.1
    · rw [if_pos hk] at h
      cases h
      exact htbl p (List.mem_cons_self p rest)
    · rw [if_neg hk] at h
      exact ih (fun q hq => htbl q (List.mem_cons_of_mem p hq)) h

theorem expected_onnxruntime_not_empty
    (md : List Char → Except (List Char) (List Char)) (v : List Char)
    (h : get_onnxruntime_version_given_onnx_version md = Except.ok (some v)) :
    v.isEmpty = false := by
  cases hi : get_installed_version md "onnx".data with
  | none => simp only [get_onnxruntime_version_given_onnx_version, hi] at h; simp at h
  | some iv =>
    simp only [get_onnxruntime_version_given_onnx_version, hi] at h
    by_cases he : iv.isEmpty
    · rw [if_pos he] at h; simp at h
    · rw [if_neg he] at h
      cases hp : pyParse iv with
      | error e => rw [hp] at h; simp at h
      | ok r =>
        rw [hp] at h
        simp only [Except.ok.injEq] at h
        refine tableLookup_value_not_empty _ v onnx_to_onnx_runtime_versions ?_ h
        intro p hp2
        fin_cases hp2 <;> rfl

/-- C10: `get_installed_version` never raises: it returns the installed
version string when the metadata lookup succeeds, and `None` when the
lookup raises for any reason, so in every reconciliation branch a
metadata lookup failure is indistinguishable from the package not being
installed. -/
theorem get_installed_version_total
    (md : List Char → Except (List Char) (List Char)) (package : List Char) :
    (∀ v, md package = Except.ok v → get_installed_version md package = some v) ∧
    (∀ e, md package = Except.error e → get_installed_version md package = none) := by
  constructor <;> intro x h <;> simp [get_installed_version, h]

theorem get_installed_version_total_witness :
    get_installed_version wMd "torch".data = none :=
  (get_installed_version_total wMd "torch".data).2 "PackageNotFoundError".data rfl

/-- C1: for a requirement line whose operator is `==` (the stripped line
splits on `==` into a name and a declared version): when the installed
version equals the declared version no pip call is issued, and otherwise
exactly one pip call is issued whose command pins exactly the declared
version (`install -U "name==version"`). -/
theorem requirements_eq_exact_pin (env : PipEnv)
    (raw package_name package_version : List Char)
    (hc : containsSub (pyStrip raw) eqTok = true)
    (hs : splitOnSub (pyStrip raw) eqTok = [package_name, package_version]) :
    tryProcessEntry env raw =
      if get_installed_version env.md package_name = some package_version then
        ([], none)
      else
        ([⟨cmdInstallU (package_name ++ eqTok ++ package_version),
           descChange package_name (get_installed_version env.md package_name)
             package_version⟩],
         env.pipError (cmdInstallU (package_name ++ eqTok ++ package_version))) := by
  have hrec : pyStrip raw = package_name ++ eqTok ++ package_version :=
    splitOnSub_pair _ _ _ _ hs
  unfold tryProcessEntry
  rw [hrec] at hc hs
  rw [hrec]
  unfold processPackage
  rw [hc, hs]
  rcases eq_or_ne (get_installed_version env.md package_name) (some package_version)
    with h | h <;> simp [h, runPipCall]

theorem requirements_eq_exact_pin_witness :
    tryProcessEntry wPipEnv "numpy==1.3".data =
      if get_installed_version wPipEnv.md "numpy".data = some "1.3".data then
        ([], none)
      else
        ([⟨cmdInstallU ("numpy".data ++ eqTok ++ "1.3".data),
           descChange "numpy".data (get_installed_version wPipEnv.md "numpy".data)
             "1.3".data⟩],
         wPipEnv.pipError (cmdInstallU ("numpy".data ++ eqTok ++ "1.3".data))) :=
  requirements_eq_exact_pin wPipEnv "numpy==1.3".data "numpy".data "1.3".data
    (by decide) (by decide)

/-- C4: for a requirement line containing none of `==`, `>=`, `<=`, the
bare declaration is installed exactly when no package matching the name
is installed, where matching goes through `extract_base_package`, i.e. it
ignores a version-control-style suffix starting at the `@git` marker. -/
theorem requirements_no_operator (env : PipEnv) (raw : List Char)
    (h1 : containsSub (pyStrip raw) eqTok = false)
    (h2 : containsSub (pyStrip raw) geTok = false)
    (h3 : containsSub (pyStrip raw) leTok = false) :
    tryProcessEntry env raw =
      if env.is_installed (extract_base_package (pyStrip raw)) then ([], none)
      else
        ([⟨cmdInstallBare (pyStrip raw), descBare (pyStrip raw)⟩],
         env.pipError (cmdInstallBare (pyStrip raw))) := by
  unfold tryProcessEntry processPackage
  rw [h1, h2, h3]
  cases h : env.is_installed (extract_base_package (pyStrip raw)) <;>
    simp [h, runPipCall]

theorem requirements_no_operator_witness :
    tryProcessEntry wPipEnv "torch".data =
      if wPipEnv.is_installed (extract_base_package (pyStrip "torch".data)) then
        ([], none)
      else
        ([⟨cmdInstallBare (pyStrip "torch".data), descBare (pyStrip "torch".data)⟩],
         wPipEnv.pipError (cmdInstallBare (pyStrip "torch".data))) :=
  requirements_no_operator wPipEnv "torch".data (by decide) (by decide) (by decide)

/-- C2: for a requirement line whose operator is `>=` (the stripped line
splits on `>=` into a name and a declared version, the declared version
parses, and the installed version, when present, parses): an install call
is issued if and only if the package is not installed or its installed
version is strictly less than the declared version under the
release-tuple ordering; otherwise no call is issued. -/
theorem requirements_ge_install_iff (env : PipEnv)
    (raw package_name package_version : List Char) (rv : List Nat)
    (hne : containsSub (pyStrip raw) eqTok = false)
    (hc : containsSub (pyStrip raw) geTok = true)
    (hs : splitOnSub (pyStrip raw) geTok = [package_name, package_version])
    (hver : pyParse package_version = Except.ok rv)
    (hinst : parseOk (get_installed_version env.md package_name) = true) :
    ((tryProcessEntry env raw).1 ≠ [] ↔
      (get_installed_version env.md package_name = none ∨
       ∃ iv ri, get_installed_version env.md package_name = some iv ∧
         pyParse iv = Except.ok ri ∧ releaseLt ri rv = true)) := by
  unfold tryProcessEntry processPackage
  rw [hne, hc, hs]
  simp only [Bool.false_eq_true, if_false, if_true]
  cases hgiv : get_installed_version env.md package_name with
  | none =>
    simp [runPipCall]
  | some iv =>
    simp only [parseOk, hgiv] at hinst
    cases hpi : pyParse iv with
    | error e => rw [hpi] at hinst; simp at hinst
    | ok ri =>
      have hivne : iv.isEmpty = false := pyParse_ok_not_empty iv ri hpi
      simp only [hivne, Bool.false_eq_true, if_false, hpi, hver]
      cases hlt : releaseLt ri rv with
      | true =>
        simp only [if_true, runPipCall]
        constructor
        · intro _
          exact Or.inr ⟨iv, ri, rfl, hpi, hlt⟩
        · intro _
          simp
      | false =>
        simp only [Bool.false_eq_true, if_false]
        constructor
        · intro h
          exact absurd rfl h
        · rintro (h | ⟨iv', ri', hiv', hpi', hlt'⟩)
          · simp at h
          · rw [Option.some.injEq] at hiv'
            subst hiv'
            rw [hpi] at hpi'
            rw [Except.ok.injEq] at hpi'
            subst hpi'
            rw [hlt] at hlt'
            exact absurd hlt' (by simp)

theorem requirements_ge_install_iff_witness :
    ((tryProcessEntry wPipEnv "numpy>=1.2.1".data).1 ≠ [] ↔
      (get_installed_version wPipEnv.md "numpy".data = none ∨
       ∃ iv ri, get_installed_version wPipEnv.md "numpy".data = some iv ∧
         pyParse iv = Except.ok ri ∧ releaseLt ri [1, 2, 1] = true)) :=
  requirements_ge_install_iff wPipEnv "numpy>=1.2.1".data "numpy".data
    "1.2.1".data [1, 2, 1] (by decide) (by decide) (by decide) (by decide)
    (by decide)

/-- C3: for a requirement line whose operator is `<=` (the stripped line
splits on `<=` into a name and a declared version, the declared version
parses, and the installed version, when present, parses): an install call
is issued if and only if the package is not installed or its installed
version is strictly greater than the declared version under the
release-tuple ordering, and every such call pins exactly the declared
upper-bound version (`install "name==version"`). -/
theorem requirements_le_install_iff_pin (env : PipEnv)
    (raw package_name package_version : List Char) (rv : List Nat)
    (hne : containsSub (pyStrip raw) eqTok = false)
    (hng : containsSub (pyStrip raw) geTok = false)
    (hc : containsSub (pyStrip raw) leTok = true)
    (hs : splitOnSub (pyStrip raw) leTok = [package_name, package_version])
    (hver : pyParse package_version = Except.ok rv)
    (hinst : parseOk (get_installed_version env.md package_name) = true) :
    ((tryProcessEntry env raw).1 ≠ [] ↔
      (get_installed_version env.md package_name = none ∨
       ∃ iv ri, get_installed_version env.md package_name = some iv ∧
         pyParse iv = Except.ok ri ∧ releaseLt rv ri = true)) ∧
    ((tryProcessEntry env raw).1 ≠ [] →
      (tryProcessEntry env raw).1 =
        [⟨cmdInstallPin package_name package_version,
          descChange package_name (get_installed_version env.md package_name)
            package_version⟩]) := by
  unfold tryProcessEntry processPackage
  rw [hne, hng, hc, hs]
  simp only [Bool.false_eq_true, if_false, if_true]
  cases hgiv : get_installed_version env.md package_name with
  | none =>
    constructor
    · simp [runPipCall]
    · intro _
      simp [runPipCall]
  | some iv =>
    simp only [parseOk, hgiv] at hinst
    cases hpi : pyParse iv with
    | error e => rw [hpi] at hinst; simp at hinst
    | ok ri =>
      have hivne : iv.isEmpty = false := pyParse_ok_not_empty iv ri hpi
      simp only [hivne, Bool.false_eq_true, if_false, hpi, hver]
      cases hgt : releaseLt rv ri with
      | true =>
        simp only [if_true, runPipCall]
        refine ⟨⟨fun _ => Or.inr ⟨iv, ri, rfl, hpi, hgt⟩, fun _ => by simp⟩, ?_⟩
        intro _
        trivial
      | false =>
        simp only [Bool.false_eq_true, if_false]
        refine ⟨⟨fun h => absurd rfl h, ?_⟩, fun h => absurd rfl h⟩
        rintro (h | ⟨iv', ri', hiv', hpi', hgt'⟩)
        · simp at h
        · rw [Option.some.injEq] at hiv'
          subst hiv'
          rw [hpi] at hpi'
          rw [Except.ok.injEq] at hpi'
          subst hpi'
          rw [hgt] at hgt'
          exact absurd hgt' (by simp)

theorem requirements_le_install_iff_pin_witness :
    ((tryProcessEntry wPipEnv "numpy<=1.1".data).1 ≠ [] ↔
      (get_installed_version wPipEnv.md "numpy".data = none ∨
       ∃ iv ri, get_installed_version wPipEnv.md "numpy".data = some iv ∧
         pyParse iv = Except.ok ri ∧ releaseLt [1, 1] ri = true)) ∧
    ((tryProcessEntry wPipEnv "numpy<=1.1".data).1 ≠ [] →
      (tryProcessEntry wPipEnv "numpy<=1.1".data).1 =
        [⟨cmdInstallPin "numpy".data "1.1".data,
          descChange "numpy".data (get_installed_version wPipEnv.md "numpy".data)
            "1.1".data⟩]) :=
  requirements_le_install_iff_pin wPipEnv "numpy<=1.1".data "numpy".data
    "1.1".data [1, 1] (by decide) (by decide) (by decide) (by decide)
    (by decide) (by decide)

/-- C5: a failure raised while processing one requirement entry is caught
inside `install_requirements` and logged (the exception message and the
warning line are printed), and does not prevent processing of any
subsequent entry: the entries before and after the failing one contribute
exactly what they would contribute on their own. -/
theorem requirements_continue_after_failure (env : PipEnv)
    (pre post : List (List Char)) (raw msg : List Char)
    (hfail : (tryProcessEntry env raw).2 = some msg) :
    install_requirements env (pre ++ raw :: post) =
      ((install_requirements env pre).1 ++ (tryProcessEntry env raw).1 ++
        (install_requirements env post).1,
       (install_requirements env pre).2 ++
        (msg :: failWarn (pyStrip raw) :: (install_requirements env post).2)) := by
  rw [install_requirements_append]
  cases ht : tryProcessEntry env raw with
  | mk calls err =>
    rw [ht] at hfail
    simp only at hfail
    subst hfail
    simp [install_requirements, processEntry, ht]

theorem requirements_continue_after_failure_witness :
    install_requirements wPipEnv
      (["numpy==1.2".data] ++ "a==1==2".data :: ["torch".data]) =
      ((install_requirements wPipEnv ["numpy==1.2".data]).1 ++
        (tryProcessEntry wPipEnv "a==1==2".data).1 ++
        (install_requirements wPipEnv ["torch".data]).1,
       (install_requirements wPipEnv ["numpy==1.2".data]).2 ++
        (valueErrorMsg :: failWarn (pyStrip "a==1==2".data) ::
          (install_requirements wPipEnv ["torch".data]).2)) :=
  requirements_continue_after_failure wPipEnv ["numpy==1.2".data]
    ["torch".data] "a==1==2".data valueErrorMsg (by decide)

/-- C7: when the destination lib directory exists and is non-empty at the
start of `install_xpose`, the function performs no subprocess invocation
and no filesystem change at all — its effect trace is empty — regardless
of the platform gate and of what the existing files are. -/
theorem xpose_skip_when_populated (env : XpEnv)
    (hex : env.op_lib_exists = true) (hne : env.op_lib_listing ≠ []) :
    install_xpose env = [] := by
  unfold install_xpose
  rw [hex]
  have hemp : env.op_lib_listing.isEmpty = false := by
    cases h : env.op_lib_listing with
    | nil => exact absurd h hne
    | cons a t => rfl
  simp [hemp]

theorem xpose_skip_when_populated_witness :
    install_xpose wXpEnvDone = [] :=
  xpose_skip_when_populated wXpEnvDone (by decide) (by decide)

/-- C6: when the build subprocess exits with a nonzero exit status (a
negative `returncode` would mean termination by signal, not an exit
status), no file is copied into the destination lib directory and
`install_xpose` returns (its trace ends after the failure message). -/
theorem xpose_failed_build_no_copy (env : XpEnv)
    (hne : env.build_returncode ≠ 0) (hnn : 0 ≤ env.build_returncode) :
    ∀ src dst, FsAction.copyFile src dst ∉ install_xpose env := by
  intro src dst
  have hpos : 0 < env.build_returncode := lt_of_le_of_ne hnn (Ne.symm hne)
  unfold install_xpose
  rw [if_pos hpos]
  split
  · simp
  · split
    · cases h3 : env.op_lib_exists <;> cases h4 : env.logs_exists <;>
        simp [h3, h4]
    · simp

theorem xpose_failed_build_no_copy_witness :
    FsAction.copyFile "MultiScaleDeformableAttention.so".data
      (op_lib wXpEnvFail) ∉ install_xpose wXpEnvFail :=
  xpose_failed_build_no_copy wXpEnvFail (by decide) (by decide)
    "MultiScaleDeformableAttention.so".data (op_lib wXpEnvFail)

theorem tableLookup_value_parseOk (k v : List Char)
    (tbl : List (List Char × List Char))
    (htbl : ∀ p ∈ tbl, parseOk (some p.2) = true)
    (h : tableLookup k tbl = some v) : parseOk (some v) = true := by
  induction tbl with
  | nil => simp [tableLookup] at h
  | cons p rest ih =>
    simp only [tableLookup] at h
    by_cases hk : k = p.1
    · rw [if_pos hk] at h
      cases h
      exact htbl p (List.mem_cons_self p rest)
    · rw [if_neg hk] at h
      exact ih (fun q hq => htbl q (List.mem_cons_of_mem p hq)) h

theorem expected_onnxruntime_parseOk
    (md : List Char → Except (List Char) (List Char)) (v : List Char)
    (h : get_onnxruntime_version_given_onnx_version md = Except.ok (some v)) :
    parseOk (some v) = true := by
  cases hi : get_installed_version md "onnx".data with
  | none =>
    simp only [get_onnxruntime_version_given_onnx_version, hi] at h
    simp at h
  | some iv =>
    simp only [get_onnxruntime_version_given_onnx_version, hi] at h
    by_cases he : iv.isEmpty
    · rw [if_pos he] at h; simp at h
    · rw [if_neg he] at h
      cases hp : pyParse iv with
      | error e => rw [hp] at h; simp at h
      | ok r =>
        rw [hp] at h
        simp only [Except.ok.injEq] at h
        refine tableLookup_value_parseOk _ v onnx_to_onnx_runtime_versions ?_ h
        intro p hp2
        fin_cases hp2 <;> rfl

/-- C8: when neither `onnxruntime` nor `onnxruntime-gpu` is installed,
`install_onnxruntime` issues exactly one install call: for
`onnxruntime-gpu` when an accelerator is detected and for `onnxruntime`
otherwise, pinned to the compatible runtime version when the
compatibility lookup found one and bare otherwise. -/
theorem onnxruntime_fresh_install (env : OrtEnv) (expct : Option (List Char))
    (h1 : get_installed_version env.md "onnxruntime".data = none)
    (h2 : get_installed_version env.md "onnxruntime-gpu".data = none)
    (hexp : get_onnxruntime_version_given_onnx_version env.md = Except.ok expct) :
    install_onnxruntime env =
      ortPipCall env
        (expct.elim
          (if env.cuda_available then "onnxruntime-gpu".data
           else "onnxruntime".data)
          (fun v =>
            (if env.cuda_available then "onnxruntime-gpu".data
             else "onnxruntime".data) ++ eqTok ++ v)) := by
  cases expct with
  | none =>
    unfold install_onnxruntime
    rw [hexp, h1, h2]
    simp [optTruthy]
  | some v =>
    have hv : v.isEmpty = false :=
      expected_onnxruntime_not_empty env.md v hexp
    unfold install_onnxruntime
    rw [hexp, h1, h2]
    simp [optTruthy, hv]

theorem onnxruntime_fresh_install_witness :
    install_onnxruntime wOrtEnv =
      ortPipCall wOrtEnv
        ((some "1.16".data).elim
          (if wOrtEnv.cuda_available then "onnxruntime-gpu".data
           else "onnxruntime".data)
          (fun v =>
            (if wOrtEnv.cuda_available then "onnxruntime-gpu".data
             else "onnxruntime".data) ++ eqTok ++ v)) :=
  onnxruntime_fresh_install wOrtEnv (some "1.16".data) (by decide) (by decide)
    (by decide)

theorem ortVariantStep_spec (env : OrtEnv) (o : Option (List Char))
    (pkgName ev : List Char)
    (hp : parseOk o = true) (hev : parseOk (some ev) = true)
    (hpip : ∀ c, env.pipError c = none) :
    ortVariantStep env o pkgName (some ev) =
      (o.elim []
        (fun iv =>
          if are_versions_similar iv ev = Except.ok true then []
          else [⟨"install ".data ++ (pkgName ++ eqTok ++ ev),
                 descBare (pkgName ++ eqTok ++ ev)⟩]),
       none) := by
  cases hpe : pyParse ev with
  | error e => simp [parseOk, hpe] at hev
  | ok re =>
    have hevne : ev.isEmpty = false := pyParse_ok_not_empty ev re hpe
    cases o with
    | none => simp [ortVariantStep, optTruthy]
    | some iv =>
      simp only [parseOk] at hp
      cases hpi : pyParse iv with
      | error e => rw [hpi] at hp; simp at hp
      | ok ri =>
        have hivne : iv.isEmpty = false := pyParse_ok_not_empty iv ri hpi
        have hsim : are_versions_similar iv ev =
            Except.ok ((relMajor ri == relMajor re) &&
              (relMinor ri == relMinor re)) := by
          simp [are_versions_similar, hpi, hpe]
        simp only [ortVariantStep, optTruthy, hivne, hevne, Bool.not_false,
          Bool.and_self, if_true, hsim]
        cases hb : (relMajor ri == relMajor re) && (relMinor ri == relMinor re) with
        | true => simp [hsim, hb]
        | false => simp [hsim, hb, ortPipCall, hpip]

/-- C9: when a runtime variant is already installed and the compatibility
lookup found a required runtime version (and the versions involved
parse, and pip itself does not fail): each installed variant is compared
with the required version by `are_versions_similar` (major and minor
equal, patch ignored) independently, and a pinned reinstall of exactly
the compatible version is issued for it if and only if the versions are
dissimilar; a patch-only difference yields no call. -/
theorem onnxruntime_similarity_reinstall (env : OrtEnv) (ev : List Char)
    (hexp : get_onnxruntime_version_given_onnx_version env.md =
      Except.ok (some ev))
    (hsome : (optTruthy (get_installed_version env.md "onnxruntime".data) ||
      optTruthy (get_installed_version env.md "onnxruntime-gpu".data)) = true)
    (hp1 : parseOk (get_installed_version env.md "onnxruntime".data) = true)
    (hp2 : parseOk (get_installed_version env.md "onnxruntime-gpu".data) = true)
    (hpip : ∀ c, env.pipError c = none) :
    install_onnxruntime env =
      ((get_installed_version env.md "onnxruntime".data).elim []
        (fun iv =>
          if are_versions_similar iv ev = Except.ok true then []
          else [⟨"install ".data ++ ("onnxruntime".data ++ eqTok ++ ev),
                 descBare ("onnxruntime".data ++ eqTok ++ ev)⟩]) ++
       (get_installed_version env.md "onnxruntime-gpu".data).elim []
        (fun iv =>
          if are_versions_similar iv ev = Except.ok true then []
          else [⟨"install ".data ++ ("onnxruntime-gpu".data ++ eqTok ++ ev),
                 descBare ("onnxruntime-gpu".data ++ eqTok ++ ev)⟩]),
       none) := by
  have hev : parseOk (some ev) = true := expected_onnxruntime_parseOk env.md ev hexp
  have hcond : (!optTruthy (get_installed_version env.md "onnxruntime".data) &&
      !optTruthy (get_installed_version env.md "onnxruntime-gpu".data)) = false := by
    cases h1 : optTruthy (get_installed_version env.md "onnxruntime".data) <;>
      cases h2 : optTruthy (get_installed_version env.md "onnxruntime-gpu".data) <;>
        rw [h1, h2] at hsome <;> simp_all
  unfold install_onnxruntime
  simp only [hexp]
  rw [hcond]
  simp only [Bool.false_eq_true, if_false]
  rw [ortVariantStep_spec env (get_installed_version env.md "onnxruntime".data)
    "onnxruntime".data ev hp1 hev hpip]
  rw [ortVariantStep_spec env (get_installed_version env.md "onnxruntime-gpu".data)
    "onnxruntime-gpu".data ev hp2 hev hpip]

theorem onnxruntime_similarity_reinstall_witness :
    install_onnxruntime wOrtEnv2 =
      ((get_installed_version wOrtEnv2.md "onnxruntime".data).elim []
        (fun iv =>
          if are_versions_similar iv "1.16".data = Except.ok true then []
          else [⟨"install ".data ++ ("onnxruntime".data ++ eqTok ++ "1.16".data),
                 descBare ("onnxruntime".data ++ eqTok ++ "1.16".data)⟩]) ++
       (get_installed_version wOrtEnv2.md "onnxruntime-gpu".data).elim []
        (fun iv =>
          if are_versions_similar iv "1.16".data = Except.ok true then []
          else [⟨"install ".data ++ ("onnxruntime-gpu".data ++ eqTok ++ "1.16".data),
                 descBare ("onnxruntime-gpu".data ++ eqTok ++ "1.16".data)⟩]),
       none) :=
  onnxruntime_similarity_reinstall wOrtEnv2 "1.16".data (by decide) (by decide)
    (by decide) (by decide) (fun _ => rfl)
